import Mathlib

/-
Verification of the Business Hub client-side store (src/script.js).

The program keeps one JSON document (collections of thoughts, work items,
projects, messages, plus an optional admin credential) under a single
localStorage key.  Every mutation is load-whole-document, mutate in memory,
save-whole-document.  We shallow-embed the document as a Lean structure,
the persisted slot as an optional raw value, and each event handler as a
pure function of its inputs (form field strings, the result of the
asynchronous image read, the generated id, the current timestamp) and the
stored document.

Host primitives are modelled as follows.
  - localStorage: the slot is an `Option Raw`; `getItem` returning null is
    `none`.
  - JSON.parse / JSON.stringify: a raw string is abstracted by its parse
    outcome (`Raw.wellFormed j` for a string that parses to the JSON value
    `j`, `Raw.malformed` for one on which JSON.parse throws).  For the
    values this program writes (null, booleans, strings, arrays, objects;
    it stores no numbers) JSON.stringify output always parses back to the
    same JSON value, so `saveDB` stores `Raw.wellFormed` of the document's
    JSON value.
  - crypto.subtle.digest SHA-256: implemented concretely below, together
    with the hex encoding the program performs on the digest bytes.
  - Math.random-based id generation and Date.now timestamps: passed in as
    explicit arguments (`newId`, `now`).
  - alert / showToast: returned as a `UIEvent` value.
  - a JavaScript TypeError (dereferencing undefined) is `Except.error ()`.
-/

/-- Admin credential, `{email, passHash}` (script.js line 23 and `setupAdmin`). -/
structure Credential where
  email : String
  passHash : String
deriving DecidableEq, Repr

/-- Record pushed by `saveThought` (create branch, script.js line 291):
`{ id, title, category, content, image, created }`, with `updated` added on
first edit (line 288). -/
structure Thought where
  id : String
  title : String
  category : String
  content : String
  image : Option String
  created : String
  updated : Option String
deriving DecidableEq, Repr

/-- Record pushed by `saveWork` (script.js line 352). -/
structure WorkItem where
  id : String
  title : String
  tags : List String
  content : String
  image : Option String
  created : String
  updated : Option String
deriving DecidableEq, Repr

/-- Record pushed by `saveProject` (script.js line 388). -/
structure Project where
  id : String
  title : String
  link : String
  desc : String
  image : Option String
  created : String
  updated : Option String
deriving DecidableEq, Repr

/-- Record pushed by `saveLocalMessage` (script.js line 437):
`{ id: uid(), name, email, subject, message, created }`. -/
structure Message where
  id : String
  name : String
  email : String
  subject : String
  message : String
  created : String
deriving DecidableEq, Repr

/-- The whole persisted document (script.js DEFAULT_DB shape, lines 18-24). -/
structure DB where
  thoughts : List Thought
  work : List WorkItem
  projects : List Project
  messages : List Message
  admin : Option Credential
deriving DecidableEq, Repr

/-- The default document `DEFAULT_DB` (script.js lines 18-24). -/
def DEFAULT_DB : DB :=
  { thoughts := [], work := [], projects := [], messages := [], admin := none }

/-- JSON values, as produced by the host JSON.parse.  The program itself
stores only null, strings, arrays and objects; booleans and integers are
kept so that foreign well-formed data is representable. -/
inductive Json where
  | null : Json
  | bool : Bool → Json
  | num : Int → Json
  | str : String → Json
  | arr : List Json → Json
  | obj : List (String × Json) → Json

/-- Encoding of an optional string field (`image: img || null`). -/
def optStrJson : Option String → Json
  | none => Json.null
  | some s => Json.str s

/-- JSON value of a thought record, field insertion order as in script.js
line 291; the `updated` key exists only once line 288 has run. -/
def Thought.toJson (t : Thought) : Json :=
  Json.obj ([("id", Json.str t.id), ("title", Json.str t.title),
    ("category", Json.str t.category), ("content", Json.str t.content),
    ("image", optStrJson t.image), ("created", Json.str t.created)] ++
    (match t.updated with
     | none => []
     | some u => [("updated", Json.str u)]))

/-- JSON value of a work record (script.js line 352). -/
def WorkItem.toJson (w : WorkItem) : Json :=
  Json.obj ([("id", Json.str w.id), ("title", Json.str w.title),
    ("tags", Json.arr (w.tags.map Json.str)), ("content", Json.str w.content),
    ("image", optStrJson w.image), ("created", Json.str w.created)] ++
    (match w.updated with
     | none => []
     | some u => [("updated", Json.str u)]))

/-- JSON value of a project record (script.js line 388). -/
def Project.toJson (p : Project) : Json :=
  Json.obj ([("id", Json.str p.id), ("title", Json.str p.title),
    ("link", Json.str p.link), ("desc", Json.str p.desc),
    ("image", optStrJson p.image), ("created", Json.str p.created)] ++
    (match p.updated with
     | none => []
     | some u => [("updated", Json.str u)]))

/-- JSON value of a message record (script.js line 437). -/
def Message.toJson (m : Message) : Json :=
  Json.obj [("id", Json.str m.id), ("name", Json.str m.name),
    ("email", Json.str m.email), ("subject", Json.str m.subject),
    ("message", Json.str m.message), ("created", Json.str m.created)]

/-- JSON value of the admin field: null until setup (script.js line 23). -/
def adminToJson : Option Credential → Json
  | none => Json.null
  | some a => Json.obj [("email", Json.str a.email), ("passHash", Json.str a.passHash)]

/-- JSON value of the whole document, key order as in DEFAULT_DB. -/
def DB.toJson (db : DB) : Json :=
  Json.obj [("thoughts", Json.arr (db.thoughts.map Thought.toJson)),
    ("work", Json.arr (db.work.map WorkItem.toJson)),
    ("projects", Json.arr (db.projects.map Project.toJson)),
    ("messages", Json.arr (db.messages.map Message.toJson)),
    ("admin", adminToJson db.admin)]

/-- Reading a JSON value as a string. -/
def Json.getStr? : Json → Option String
  | Json.str s => some s
  | _ => none

/-- Reading a JSON value as a nullable string. -/
def Json.getOptStr? : Json → Option (Option String)
  | Json.null => some none
  | Json.str s => some (some s)
  | _ => none

/-- Decoding every element of a JSON array with a given element decoder. -/
def decodeListWith (f : Json → Option α) : List Json → Option (List α)
  | [] => some []
  | j :: js =>
      match f j, decodeListWith f js with
      | some a, some as => some (a :: as)
      | _, _ => none

/-- Decoder of a thought record: the shape `saveThought` writes and the
renderers read. -/
def Thought.fromJson? : Json → Option Thought
  | Json.obj fs => do
      let id ← (fs.lookup "id").bind Json.getStr?
      let title ← (fs.lookup "title").bind Json.getStr?
      let category ← (fs.lookup "category").bind Json.getStr?
      let content ← (fs.lookup "content").bind Json.getStr?
      let image ← (fs.lookup "image").bind Json.getOptStr?
      let created ← (fs.lookup "created").bind Json.getStr?
      let updated ←
        match fs.lookup "updated" with
        | none => some none
        | some v => v.getStr?.map some
      pure ⟨id, title, category, content, image, created, updated⟩
  | _ => none

/-- Decoder of a work record. -/
def WorkItem.fromJson? : Json → Option WorkItem
  | Json.obj fs => do
      let id ← (fs.lookup "id").bind Json.getStr?
      let title ← (fs.lookup "title").bind Json.getStr?
      let tags ←
        match fs.lookup "tags" with
        | some (Json.arr l) => decodeListWith Json.getStr? l
        | _ => none
      let content ← (fs.lookup "content").bind Json.getStr?
      let image ← (fs.lookup "image").bind Json.getOptStr?
      let created ← (fs.lookup "created").bind Json.getStr?
      let updated ←
        match fs.lookup "updated" with
        | none => some none
        | some v => v.getStr?.map some
      pure ⟨id, title, tags, content, image, created, updated⟩
  | _ => none

/-- Decoder of a project record. -/
def Project.fromJson? : Json → Option Project
  | Json.obj fs => do
      let id ← (fs.lookup "id").bind Json.getStr?
      let title ← (fs.lookup "title").bind Json.getStr?
      let link ← (fs.lookup "link").bind Json.getStr?
      let desc ← (fs.lookup "desc").bind Json.getStr?
      let image ← (fs.lookup "image").bind Json.getOptStr?
      let created ← (fs.lookup "created").bind Json.getStr?
      let updated ←
        match fs.lookup "updated" with
        | none => some none
        | some v => v.getStr?.map some
      pure ⟨id, title, link, desc, image, created, updated⟩
  | _ => none

/-- Decoder of a message record. -/
def Message.fromJson? : Json → Option Message
  | Json.obj fs => do
      let id ← (fs.lookup "id").bind Json.getStr?
      let name ← (fs.lookup "name").bind Json.getStr?
      let email ← (fs.lookup "email").bind Json.getStr?
      let subject ← (fs.lookup "subject").bind Json.getStr?
      let message ← (fs.lookup "message").bind Json.getStr?
      let created ← (fs.lookup "created").bind Json.getStr?
      pure ⟨id, name, email, subject, message, created⟩
  | _ => none

/-- Decoder of the admin field. -/
def adminFromJson? : Json → Option (Option Credential)
  | Json.null => some none
  | Json.obj fs => do
      let email ← (fs.lookup "email").bind Json.getStr?
      let passHash ← (fs.lookup "passHash").bind Json.getStr?
      pure (some ⟨email, passHash⟩)
  | _ => none

/-- Decoder of the whole document: exactly the documents of the shape of
section 3 of the design, which is the shape the program writes. -/
def DB.fromJson? : Json → Option DB
  | Json.obj fs => do
      let thoughts ←
        match fs.lookup "thoughts" with
        | some (Json.arr l) => decodeListWith Thought.fromJson? l
        | _ => none
      let work ←
        match fs.lookup "work" with
        | some (Json.arr l) => decodeListWith WorkItem.fromJson? l
        | _ => none
      let projects ←
        match fs.lookup "projects" with
        | some (Json.arr l) => decodeListWith Project.fromJson? l
        | _ => none
      let messages ←
        match fs.lookup "messages" with
        | some (Json.arr l) => decodeListWith Message.fromJson? l
        | _ => none
      let admin ← (fs.lookup "admin").bind adminFromJson?
      pure ⟨thoughts, work, projects, messages, admin⟩
  | _ => none

/-- Raw persisted strings, abstracted by their JSON.parse outcome: a string
either parses to a JSON value or makes JSON.parse throw. -/
inductive Raw where
  | wellFormed : Json → Raw
  | malformed : Raw

/-- The `loadDB` function (script.js lines 26-34): missing slot yields a
deep copy of DEFAULT_DB, a parse failure is caught and also yields the
default; a well-formed raw value is returned as parsed.  Totality of this
function is the no-raise guarantee. -/
def loadDB : Option Raw → Json
  | none => DB.toJson DEFAULT_DB
  | some (Raw.wellFormed j) => j
  | some Raw.malformed => DB.toJson DEFAULT_DB

/-- The `saveDB` function (script.js lines 35-38): stringify the document
and replace the slot contents.  JSON.stringify of a document value yields a
string that parses back to that value. -/
def saveDB (j : Json) (_slot : Option Raw) : Option Raw :=
  some (Raw.wellFormed j)

theorem thought_fromJson_toJson (t : Thought) :
    Thought.fromJson? (Thought.toJson t) = some t := by
  cases t with
  | mk id title category content image created updated =>
      cases image <;> cases updated <;> rfl

theorem decodeListWith_strings (l : List String) :
    decodeListWith Json.getStr? (l.map Json.str) = some l := by
  induction l with
  | nil => rfl
  | cons x xs ih => simp [decodeListWith, ih, Json.getStr?]

theorem work_fromJson_toJson (w : WorkItem) :
    WorkItem.fromJson? (WorkItem.toJson w) = some w := by
  cases w with
  | mk id title tags content image created updated =>
      cases image <;> cases updated <;>
        simp [WorkItem.toJson, WorkItem.fromJson?, optStrJson, Json.getStr?,
          Json.getOptStr?, List.lookup, decodeListWith_strings, Option.bind]

theorem project_fromJson_toJson (p : Project) :
    Project.fromJson? (Project.toJson p) = some p := by
  cases p with
  | mk id title link desc image created updated =>
      cases image <;> cases updated <;> rfl

theorem message_fromJson_toJson (m : Message) :
    Message.fromJson? (Message.toJson m) = some m := by
  cases m
  rfl

theorem decodeListWith_map (f : Json → Option α) (g : α → Json)
    (h : ∀ x, f (g x) = some x) (l : List α) :
    decodeListWith f (l.map g) = some l := by
  induction l with
  | nil => rfl
  | cons x xs ih => simp [decodeListWith, h, ih]

theorem admin_fromJson_toJson (a : Option Credential) :
    adminFromJson? (adminToJson a) = some a := by
  cases a with
  | none => rfl
  | some c => cases c; rfl

/-- Decoding is a left inverse of encoding on whole documents. -/
theorem db_fromJson_toJson (db : DB) :
    DB.fromJson? (DB.toJson db) = some db := by
  cases db with
  | mk thoughts work projects messages admin =>
      simp [DB.toJson, DB.fromJson?, List.lookup,
        decodeListWith_map Thought.fromJson? Thought.toJson thought_fromJson_toJson,
        decodeListWith_map WorkItem.fromJson? WorkItem.toJson work_fromJson_toJson,
        decodeListWith_map Project.fromJson? Project.toJson project_fromJson_toJson,
        decodeListWith_map Message.fromJson? Message.toJson message_fromJson_toJson,
        admin_fromJson_toJson, Option.bind]

/-- UI outcomes the handlers produce: a blocking `alert(msg)` or a
transient `showToast(msg)`. -/
inductive UIEvent where
  | alert : String → UIEvent
  | toast : String → UIEvent
deriving DecidableEq, Repr

/-- JavaScript string truthiness applied to a nullable string, as in
`if(img)`, `if(editingThoughtId)`, `img || null`: null and the empty
string are falsy. -/
def truthyStr : Option String → Option String
  | none => none
  | some s => if s = "" then none else some s

/-- JavaScript String.prototype.trim: strip leading and trailing
whitespace.  Implemented over the character list so that it evaluates
inside the kernel. -/
def jsTrim (s : String) : String :=
  String.mk (((s.data.dropWhile Char.isWhitespace).reverse.dropWhile
    Char.isWhitespace).reverse)

/-- Splitting a character list at every occurrence of a separator; an empty
input yields one empty piece, as String.prototype.split does. -/
def splitChar (sep : Char) : List Char → List (List Char)
  | [] => [[]]
  | c :: cs =>
      let r := splitChar sep cs
      if c = sep then [] :: r
      else
        match r with
        | [] => [[c]]
        | h :: t => (c :: h) :: t

/-- JavaScript split with a single-character separator. -/
def jsSplit (sep : Char) (s : String) : List String :=
  (splitChar sep s.data).map String.mk

/-- In-place mutation of the record returned by `Array.prototype.find`:
the first element satisfying the predicate is replaced by its update,
everything else is untouched. -/
def updateFirst (p : α → Bool) (f : α → α) : List α → List α
  | [] => []
  | x :: xs => if p x then f x :: xs else x :: updateFirst p f xs

/-- The inputs of the thought editor form (title, category, content fields
and the result of `fileToBase64` on the chosen file, null when no file was
chosen). -/
structure ThoughtForm where
  title : String
  category : String
  content : String
  image : Option String
deriving Repr

/-- The field assignments the edit branch of `saveThought` performs on the
record `find` returned (script.js line 288): title, category, content are
overwritten, the image only when a new file was read, and `updated` is set. -/
def thoughtEdit (form : ThoughtForm) (now : String) (t : Thought) : Thought :=
  { t with
    title := jsTrim form.title
    category := if jsTrim form.category = "" then "Uncategorized" else jsTrim form.category
    content := jsTrim form.content
    image := (match truthyStr form.image with
      | some s => some s
      | none => t.image)
    updated := some now }

/-- The `saveThought` handler (script.js lines 276-297) as a function of
the form contents, the editing state `editingThoughtId`, the generated id,
the timestamp, and the stored document.  Returns the document to persist
and the UI event shown. -/
def saveThought (form : ThoughtForm) (editing : Option String)
    (newId now : String) (db : DB) : DB × UIEvent :=
  let title := jsTrim form.title
  if title = "" then (db, UIEvent.alert "Title required") else
  let category := if jsTrim form.category = "" then "Uncategorized" else jsTrim form.category
  let content := jsTrim form.content
  let img := truthyStr form.image
  match truthyStr editing with
  | some eid =>
      match db.thoughts.find? (fun x => x.id == eid) with
      | none => (db, UIEvent.toast "Not found")
      | some _ =>
          ({ db with thoughts := updateFirst (fun x => x.id == eid) (thoughtEdit form now) db.thoughts },
           UIEvent.toast "Thought updated")
  | none =>
      ({ db with thoughts := db.thoughts ++
          [⟨newId, title, category, content, img, now, none⟩] },
       UIEvent.toast "Thought saved")

/-- The `deleteThought` handler (script.js lines 299-304). -/
def deleteThought (id : String) (db : DB) : DB × UIEvent :=
  ({ db with thoughts := db.thoughts.filter (fun t => t.id ≠ id) },
   UIEvent.toast "Thought deleted")

/-- The inputs of the work editor form; `tags` is the raw comma-separated
text. -/
structure WorkForm where
  title : String
  tags : String
  content : String
  image : Option String
deriving Repr

/-- The tag list `saveWork` derives (script.js line 341):
`split(',').map(s=>s.trim()).filter(Boolean)`. -/
def parseTags (raw : String) : List String :=
  ((jsSplit ',' raw).map jsTrim).filter (fun s => s ≠ "")

/-- The field assignments the edit branch of `saveWork` performs on the
record `find` returned (script.js line 349). -/
def workEdit (form : WorkForm) (now : String) (w : WorkItem) : WorkItem :=
  { w with
    title := jsTrim form.title
    tags := parseTags form.tags
    content := jsTrim form.content
    image := (match truthyStr form.image with
      | some s => some s
      | none => w.image)
    updated := some now }

/-- The `saveWork` handler (script.js lines 339-356).  Unlike
`saveThought`, the edit branch dereferences the result of `find` with no
not-found guard, so an editing id absent from the collection throws a
TypeError: that is the `Except.error ()` outcome. -/
def saveWork (form : WorkForm) (editing : Option String)
    (newId now : String) (db : DB) : Except Unit (DB × UIEvent) :=
  let title := jsTrim form.title
  if title = "" then Except.ok (db, UIEvent.alert "Title required") else
  let tags := parseTags form.tags
  let content := jsTrim form.content
  let img := truthyStr form.image
  match truthyStr editing with
  | some eid =>
      match db.work.find? (fun x => x.id == eid) with
      | none => Except.error ()
      | some _ =>
          Except.ok
            ({ db with work := updateFirst (fun x => x.id == eid) (workEdit form now) db.work },
              UIEvent.toast "Work updated")
  | none =>
      Except.ok ({ db with work := db.work ++
          [⟨newId, title, tags, content, img, now, none⟩] },
        UIEvent.toast "Work saved")

/-- The `deleteWork` handler (script.js line 358). -/
def deleteWork (id : String) (db : DB) : DB × UIEvent :=
  ({ db with work := db.work.filter (fun w => w.id ≠ id) },
   UIEvent.toast "Work deleted")

/-- The inputs of the project editor form. -/
structure ProjectForm where
  title : String
  link : String
  desc : String
  image : Option String
deriving Repr

/-- The field assignments the edit branch of `saveProject` performs on the
record `find` returned (script.js line 385). -/
def projectEdit (form : ProjectForm) (now : String) (p : Project) : Project :=
  { p with
    title := jsTrim form.title
    link := jsTrim form.link
    desc := jsTrim form.desc
    image := (match truthyStr form.image with
      | some s => some s
      | none => p.image)
    updated := some now }

/-- The `saveProject` handler (script.js lines 375-392); like `saveWork`
its edit branch has no not-found guard. -/
def saveProject (form : ProjectForm) (editing : Option String)
    (newId now : String) (db : DB) : Except Unit (DB × UIEvent) :=
  let title := jsTrim form.title
  if title = "" then Except.ok (db, UIEvent.alert "Title required") else
  let link := jsTrim form.link
  let desc := jsTrim form.desc
  let img := truthyStr form.image
  match truthyStr editing with
  | some eid =>
      match db.projects.find? (fun x => x.id == eid) with
      | none => Except.error ()
      | some _ =>
          Except.ok
            ({ db with projects := updateFirst (fun x => x.id == eid) (projectEdit form now) db.projects },
              UIEvent.toast "Project updated")
  | none =>
      Except.ok ({ db with projects := db.projects ++
          [⟨newId, title, link, desc, img, now, none⟩] },
        UIEvent.toast "Project saved")

/-- The `deleteProject` handler (script.js line 394). -/
def deleteProject (id : String) (db : DB) : DB × UIEvent :=
  ({ db with projects := db.projects.filter (fun p => p.id ≠ id) },
   UIEvent.toast "Project deleted")

/-- The `saveLocalMessage` helper (script.js lines 435-439): pushes
`{ id: uid(), ...payload }`. -/
def saveLocalMessage (m : Message) (db : DB) : DB :=
  { db with messages := db.messages ++ [m] }

/-- Outcome of the optional `fetch` POST to the configured relay endpoint:
a 2xx response (`res.ok`), a non-2xx response, or a thrown network error. -/
inductive FetchOutcome where
  | ok2xx : FetchOutcome
  | non2xx : FetchOutcome
  | netError : FetchOutcome
deriving DecidableEq, Repr

/-- The contact-form submit handler (script.js lines 399-433) as a function
of the raw field values, the endpoint field, the outcome the network would
produce, the generated id and timestamp, and the stored document. -/
def contactSubmit (name email subject message endpoint : String)
    (fetch : FetchOutcome) (newId now : String) (db : DB) : DB × UIEvent :=
  let n := jsTrim name
  let e := jsTrim email
  let s := jsTrim subject
  let m := jsTrim message
  let ep := jsTrim endpoint
  if n = "" ∨ e = "" ∨ m = "" then (db, UIEvent.alert "Fill required fields") else
  let payload : Message := ⟨newId, n, e, s, m, now⟩
  if ep ≠ "" then
    match fetch with
    | FetchOutcome.ok2xx => (db, UIEvent.toast "Message sent via Formspree")
    | FetchOutcome.non2xx =>
        (saveLocalMessage payload db, UIEvent.toast "Formspree returned error; saved locally")
    | FetchOutcome.netError =>
        (saveLocalMessage payload db, UIEvent.toast "Network error; saved locally")
  else (saveLocalMessage payload db, UIEvent.toast "Message saved locally")

/-- Addition modulo 2^32, the JavaScript `>>> 0` wraparound of SHA-256 word
arithmetic. -/
def wadd (a b : Nat) : Nat := (a + b) % 4294967296

/-- Right rotation of a 32-bit word. -/
def rotr32 (x n : Nat) : Nat :=
  ((x >>> n) ||| (x <<< (32 - n))) % 4294967296

/-- Bitwise complement of a 32-bit word. -/
def bnot32 (x : Nat) : Nat := x ^^^ 4294967295

def bsig0 (x : Nat) : Nat := rotr32 x 2 ^^^ rotr32 x 13 ^^^ rotr32 x 22

def bsig1 (x : Nat) : Nat := rotr32 x 6 ^^^ rotr32 x 11 ^^^ rotr32 x 25

def ssig0 (x : Nat) : Nat := rotr32 x 7 ^^^ rotr32 x 18 ^^^ (x >>> 3)

def ssig1 (x : Nat) : Nat := rotr32 x 17 ^^^ rotr32 x 19 ^^^ (x >>> 10)

def chf (x y z : Nat) : Nat := (x &&& y) ^^^ (bnot32 x &&& z)

def majf (x y z : Nat) : Nat := (x &&& y) ^^^ (x &&& z) ^^^ (y &&& z)

/-- The SHA-256 round constants. -/
def sha256K : List Nat :=
  [1116352408, 1899447441, 3049323471, 3921009573, 961987163, 1508970993,
   2453635748, 2870763221, 3624381080, 310598401, 607225278, 1426881987,
   1925078388, 2162078206, 2614888103, 3248222580, 3835390401, 4022224774,
   264347078, 604807628, 770255983, 1249150122, 1555081692, 1996064986,
   2554220882, 2821834349, 2952996808, 3210313671, 3336571891, 3584528711,
   113926993, 338241895, 666307205, 773529912, 1294757372, 1396182291,
   1695183700, 1986661051, 2177026350, 2456956037, 2730485921, 2820302411,
   3259730800, 3345764771, 3516065817, 3600352804, 4094571909, 275423344,
   430227734, 506948616, 659060556, 883997877, 958139571, 1322822218,
   1537002063, 1747873779, 1955562222, 2024104815, 2227730452, 2361852424,
   2428436474, 2756734187, 3204031479, 3329325298]

/-- The eight 32-bit working variables of SHA-256. -/
structure SHAState where
  a : Nat
  b : Nat
  c : Nat
  d : Nat
  e : Nat
  f : Nat
  g : Nat
  h : Nat

/-- The SHA-256 initial hash value. -/
def shaInit : SHAState :=
  ⟨1779033703, 3144134277, 1013904242, 2773480762, 1359893119, 2600822924, 528734635, 1541459225⟩

/-- SHA-256 padding: append the 0x80 byte, zero bytes up to 56 mod 64, and
the 8-byte big-endian bit length. -/
def bePad (msg : List Nat) : List Nat :=
  let L := msg.length
  let zeros := (120 - ((L + 1) % 64)) % 64
  msg ++ [128] ++ List.replicate zeros 0 ++
    (List.range 8).map (fun i => ((8 * L) >>> (8 * (7 - i))) % 256)

/-- Big-endian grouping of bytes into 32-bit words. -/
def bytesToWords : List Nat → List Nat
  | b0 :: b1 :: b2 :: b3 :: rest =>
      (((b0 * 256 + b1) * 256 + b2) * 256 + b3) :: bytesToWords rest
  | _ => []

/-- Message-schedule extension; the accumulator holds the schedule so far
in reverse, so the recurrence indices 2, 7, 15, 16 become positions
1, 6, 14, 15. -/
def schedRev : Nat → List Nat → List Nat
  | 0, acc => acc
  | n + 1, acc =>
      let nw := wadd (wadd (ssig1 (acc.getD 1 0)) (acc.getD 6 0))
                     (wadd (ssig0 (acc.getD 14 0)) (acc.getD 15 0))
      schedRev n (nw :: acc)

/-- The 64-entry message schedule of a block. -/
def schedule (w16 : List Nat) : List Nat := (schedRev 48 w16.reverse).reverse

/-- The SHA-256 compression rounds. -/
def rounds : List Nat → List Nat → SHAState → SHAState
  | k :: ks, w :: ws, st =>
      let t1 := wadd (wadd st.h (bsig1 st.e)) (wadd (chf st.e st.f st.g) (wadd k w))
      let t2 := wadd (bsig0 st.a) (majf st.a st.b st.c)
      rounds ks ws ⟨wadd t1 t2, st.a, st.b, st.c, wadd st.d t1, st.e, st.f, st.g⟩
  | _, _, st => st

def addStates (x y : SHAState) : SHAState :=
  ⟨wadd x.a y.a, wadd x.b y.b, wadd x.c y.c, wadd x.d y.d,
   wadd x.e y.e, wadd x.f y.f, wadd x.g y.g, wadd x.h y.h⟩

/-- Processing of the padded message, sixteen words per block. -/
def processWords : List Nat → SHAState → SHAState
  | w0 :: w1 :: w2 :: w3 :: w4 :: w5 :: w6 :: w7 ::
    w8 :: w9 :: w10 :: w11 :: w12 :: w13 :: w14 :: w15 :: rest, st =>
      let block := [w0, w1, w2, w3, w4, w5, w6, w7, w8, w9, w10, w11, w12, w13, w14, w15]
      let fin := rounds sha256K (schedule block) st
      processWords rest (addStates st fin)
  | _, st => st

/-- Big-endian serialization of 32-bit words back into bytes. -/
def wordsToBytes : List Nat → List Nat
  | [] => []
  | w :: ws => [(w >>> 24) % 256, (w >>> 16) % 256, (w >>> 8) % 256, w % 256] ++ wordsToBytes ws

/-- The SHA-256 digest (32 bytes) of a byte sequence. -/
def sha256bytes (msg : List Nat) : List Nat :=
  let fin := processWords (bytesToWords (bePad msg)) shaInit
  wordsToBytes [fin.a, fin.b, fin.c, fin.d, fin.e, fin.f, fin.g, fin.h]

/-- Lowercase hexadecimal digit, as produced by `toString(16)`. -/
def hexDigitChar (n : Nat) : Char :=
  if n < 10 then Char.ofNat (48 + n) else Char.ofNat (87 + n)

/-- Hex encoding of one byte, `b.toString(16).padStart(2,'0')`. -/
def byteToHex (b : Nat) : String :=
  String.mk [hexDigitChar (b / 16), hexDigitChar (b % 16)]

/-- UTF-8 encoding of one Unicode scalar value, as TextEncoder performs. -/
def utf8Char (cp : Nat) : List Nat :=
  if cp < 128 then [cp]
  else if cp < 2048 then [192 + cp / 64, 128 + cp % 64]
  else if cp < 65536 then [224 + cp / 4096, 128 + (cp / 64) % 64, 128 + cp % 64]
  else [240 + cp / 262144, 128 + (cp / 4096) % 64, 128 + (cp / 64) % 64, 128 + cp % 64]

def utf8Bytes : List Char → List Nat
  | [] => []
  | c :: cs => utf8Char c.toNat ++ utf8Bytes cs

/-- TextEncoder().encode on a string. -/
def strBytes (s : String) : List Nat := utf8Bytes s.data

/-- The `hashText` function (script.js lines 74-80): UTF-8 encode, SHA-256
digest, lowercase-hex encode each byte. -/
def hashText (s : String) : String :=
  String.join ((sha256bytes (strBytes s)).map byteToHex)

/-- Sanity anchor: the FIPS 180 test vector for the message abc. -/
theorem hashText_abc :
    hashText "abc" = "ba7816bf8f01cfea414140de5dae2223b00361a396177a9cb410ff61f20015ad" := by
  decide

/-- The `setupAdmin` handler (script.js lines 444-453): trims the email,
requires both fields, stores `{email, passHash}` and persists. -/
def setupAdmin (emailIn pass : String) (db : DB) : DB × UIEvent :=
  let email := jsTrim emailIn
  if email = "" ∨ pass = "" then (db, UIEvent.alert "Email + password required")
  else ({ db with admin := some ⟨email, hashText pass⟩ },
        UIEvent.toast "Admin created (local)")

/-- The `loginAdmin` handler (script.js lines 455-471): requires both
fields, requires a stored credential, then compares the stored email and
password hash against the submitted ones for equality. -/
def loginAdmin (emailIn pass : String) (db : DB) : UIEvent :=
  let email := jsTrim emailIn
  if email = "" ∨ pass = "" then UIEvent.alert "Email + password required"
  else
    match db.admin with
    | none => UIEvent.alert "No admin set. Use Create Admin."
    | some a =>
        if a.email = email ∧ a.passHash = hashText pass then UIEvent.toast "Logged in"
        else UIEvent.alert "Invalid credentials"

theorem updateFirst_map (p : α → Bool) (f : α → α) (g : α → β)
    (h : ∀ x, g (f x) = g x) : ∀ l : List α, (updateFirst p f l).map g = l.map g := by
  intro l
  induction l with
  | nil => rfl
  | cons x xs ih =>
      by_cases hp : p x = true
      · simp [updateFirst, hp, h]
      · simp [updateFirst, hp, ih]

theorem find?_updateFirst (p : α → Bool) (f : α → α)
    (h : ∀ x, p (f x) = p x) : ∀ l : List α,
    (updateFirst p f l).find? p = (l.find? p).map f := by
  intro l
  induction l with
  | nil => rfl
  | cons x xs ih =>
      by_cases hp : p x = true
      · simp [updateFirst, hp, List.find?_cons, h]
      · simp [updateFirst, hp, List.find?_cons, ih]

theorem filter_remove_exact (key : α → String) (i : String) (pre post : List α) (r : α)
    (hr : key r = i) (h : ((pre ++ r :: post).map key).Nodup) :
    (pre ++ r :: post).filter (fun x => key x ≠ i) = pre ++ post := by
  have hmap : (pre.map key ++ key r :: post.map key).Nodup := by simpa using h
  rw [List.nodup_append] at hmap
  obtain ⟨h1, h2, hdisj⟩ := hmap
  have hpre : ∀ x ∈ pre, key x ≠ i := by
    intro x hx hxi
    exact hdisj (List.mem_map_of_mem key hx) (by simp [hxi, hr])
  have hpost : ∀ x ∈ post, key x ≠ i := by
    intro x hx hxi
    have hnm : key r ∉ post.map key := (List.nodup_cons.mp h2).1
    exact hnm (by rw [hr, ← hxi]; exact List.mem_map_of_mem key hx)
  have e1 : pre.filter (fun x => key x ≠ i) = pre :=
    List.filter_eq_self.mpr (by intro a ha; simpa using hpre a ha)
  have e2 : post.filter (fun x => key x ≠ i) = post :=
    List.filter_eq_self.mpr (by intro a ha; simpa using hpost a ha)
  simp only [ne_eq, decide_not] at e1 e2
  simp [List.filter_append, List.filter_cons, hr, e1, e2]

/-- C1: saving any valid document and loading it back yields a document
equal to the one saved; `saveDB` stringifies into the slot, `loadDB` parses
the slot, and decoding recovers exactly the original record collections and
credential. -/
theorem load_save_roundtrip (d : DB) (slot : Option Raw) :
    DB.fromJson? (loadDB (saveDB (DB.toJson d) slot)) = some d := by
  simp [loadDB, saveDB, db_fromJson_toJson]

/-- C2: loading never raises (`loadDB` is a total function of the slot
contents) and a missing or JSON.parse-failing persisted value yields the
fresh default document: empty thoughts, work, projects and messages
collections and no admin credential. -/
theorem load_missing_or_malformed_default :
    loadDB none = DB.toJson DEFAULT_DB ∧
    loadDB (some Raw.malformed) = DB.toJson DEFAULT_DB ∧
    DB.fromJson? (DB.toJson DEFAULT_DB) = some DEFAULT_DB ∧
    DEFAULT_DB.thoughts = [] ∧ DEFAULT_DB.work = [] ∧ DEFAULT_DB.projects = [] ∧
    DEFAULT_DB.messages = [] ∧ DEFAULT_DB.admin = none := by
  exact ⟨rfl, rfl, db_fromJson_toJson DEFAULT_DB, rfl, rfl, rfl, rfl, rfl⟩

/-- C4: on a document whose ids are pairwise distinct within the collection,
deleting by id removes exactly the record carrying that id, keeps every
other record of the collection in place and in order, and leaves the other
collections and the credential untouched; this holds for thoughts, work
items and projects. -/
theorem deletes_remove_exactly :
    (∀ (db : DB) (i : String) (pre post : List Thought) (r : Thought),
      db.thoughts = pre ++ r :: post → r.id = i → (db.thoughts.map Thought.id).Nodup →
      (deleteThought i db).1 = { db with thoughts := pre ++ post }) ∧
    (∀ (db : DB) (i : String) (pre post : List WorkItem) (r : WorkItem),
      db.work = pre ++ r :: post → r.id = i → (db.work.map WorkItem.id).Nodup →
      (deleteWork i db).1 = { db with work := pre ++ post }) ∧
    (∀ (db : DB) (i : String) (pre post : List Project) (r : Project),
      db.projects = pre ++ r :: post → r.id = i → (db.projects.map Project.id).Nodup →
      (deleteProject i db).1 = { db with projects := pre ++ post }) := by
  refine ⟨?_, ?_, ?_⟩
  · intro db i pre post r hsplit hr hnodup
    cases db
    subst hsplit
    simp only [deleteThought, DB.mk.injEq, and_true, true_and]
    exact filter_remove_exact Thought.id i pre post r hr hnodup
  · intro db i pre post r hsplit hr hnodup
    cases db
    subst hsplit
    simp only [deleteWork, DB.mk.injEq, and_true, true_and]
    exact filter_remove_exact WorkItem.id i pre post r hr hnodup
  · intro db i pre post r hsplit hr hnodup
    cases db
    subst hsplit
    simp only [deleteProject, DB.mk.injEq, and_true, true_and]
    exact filter_remove_exact Project.id i pre post r hr hnodup


theorem nodup_append_single {l : List String} {a : String}
    (h : l.Nodup) (ha : a ∉ l) : (l ++ [a]).Nodup := by
  simp [List.nodup_append, h, ha]

/-- C3 counterexample: the generated id is 7 characters of Math.random
with no uniqueness check, so a creation whose generated id already occurs
in the collection stores a duplicate id: the claimed uniqueness fails. -/
theorem create_id_collision :
    ¬ (((saveThought ⟨"New", "", "", none⟩ none "abc1234" "T1"
        ⟨[⟨"abc1234", "Old", "Uncategorized", "", none, "T0", none⟩], [], [], [], none⟩).1.thoughts.map
          Thought.id).Nodup) := by
  decide

/-- C3 amended: every create appends a record carrying the generated id,
the creation timestamp and no `updated` field, and keeps the ids of the
collection pairwise distinct provided the generated id does not already
occur there; every edit of a found record preserves the ids and created
timestamps of the whole collection and sets the edited record's `updated`
field to the edit timestamp. -/
theorem create_assigns_id_created_edit_preserves :
    (∀ (form : ThoughtForm) (newId now : String) (db : DB), jsTrim form.title ≠ "" →
      (saveThought form none newId now db).1.thoughts.map (fun t => (t.id, t.created, t.updated))
        = db.thoughts.map (fun t => (t.id, t.created, t.updated)) ++ [(newId, now, none)] ∧
      (newId ∉ db.thoughts.map Thought.id → (db.thoughts.map Thought.id).Nodup →
        ((saveThought form none newId now db).1.thoughts.map Thought.id).Nodup)) ∧
    (∀ (form : WorkForm) (newId now : String) (db : DB), jsTrim form.title ≠ "" →
      ∃ db', saveWork form none newId now db = Except.ok (db', UIEvent.toast "Work saved") ∧
        db'.work.map (fun w => (w.id, w.created, w.updated))
          = db.work.map (fun w => (w.id, w.created, w.updated)) ++ [(newId, now, none)] ∧
        (newId ∉ db.work.map WorkItem.id → (db.work.map WorkItem.id).Nodup →
          (db'.work.map WorkItem.id).Nodup)) ∧
    (∀ (form : ProjectForm) (newId now : String) (db : DB), jsTrim form.title ≠ "" →
      ∃ db', saveProject form none newId now db = Except.ok (db', UIEvent.toast "Project saved") ∧
        db'.projects.map (fun p => (p.id, p.created, p.updated))
          = db.projects.map (fun p => (p.id, p.created, p.updated)) ++ [(newId, now, none)] ∧
        (newId ∉ db.projects.map Project.id → (db.projects.map Project.id).Nodup →
          (db'.projects.map Project.id).Nodup)) ∧
    (∀ (name email subject message : String) (fetch : FetchOutcome) (newId now : String) (db : DB),
      jsTrim name ≠ "" → jsTrim email ≠ "" → jsTrim message ≠ "" →
      (contactSubmit name email subject message "" fetch newId now db).1.messages.map
          (fun m => (m.id, m.created))
        = db.messages.map (fun m => (m.id, m.created)) ++ [(newId, now)] ∧
      (newId ∉ db.messages.map Message.id → (db.messages.map Message.id).Nodup →
        ((contactSubmit name email subject message "" fetch newId now db).1.messages.map
          Message.id).Nodup)) ∧
    (∀ (form : ThoughtForm) (eid newId now : String) (db : DB) (t0 : Thought),
      jsTrim form.title ≠ "" → eid ≠ "" →
      db.thoughts.find? (fun x => x.id == eid) = some t0 →
      (saveThought form (some eid) newId now db).1.thoughts.map Thought.id
          = db.thoughts.map Thought.id ∧
      (saveThought form (some eid) newId now db).1.thoughts.map Thought.created
          = db.thoughts.map Thought.created ∧
      ((saveThought form (some eid) newId now db).1.thoughts.find? (fun x => x.id == eid)).map
          (fun t => (t.id, t.created, t.updated)) = some (t0.id, t0.created, some now)) ∧
    (∀ (form : WorkForm) (eid newId now : String) (db : DB) (w0 : WorkItem),
      jsTrim form.title ≠ "" → eid ≠ "" →
      db.work.find? (fun x => x.id == eid) = some w0 →
      ∃ db', saveWork form (some eid) newId now db = Except.ok (db', UIEvent.toast "Work updated") ∧
        db'.work.map WorkItem.id = db.work.map WorkItem.id ∧
        db'.work.map WorkItem.created = db.work.map WorkItem.created ∧
        (db'.work.find? (fun x => x.id == eid)).map (fun w => (w.id, w.created, w.updated))
          = some (w0.id, w0.created, some now)) ∧
    (∀ (form : ProjectForm) (eid newId now : String) (db : DB) (p0 : Project),
      jsTrim form.title ≠ "" → eid ≠ "" →
      db.projects.find? (fun x => x.id == eid) = some p0 →
      ∃ db', saveProject form (some eid) newId now db
            = Except.ok (db', UIEvent.toast "Project updated") ∧
        db'.projects.map Project.id = db.projects.map Project.id ∧
        db'.projects.map Project.created = db.projects.map Project.created ∧
        (db'.projects.find? (fun x => x.id == eid)).map (fun p => (p.id, p.created, p.updated))
          = some (p0.id, p0.created, some now)) := by
  refine ⟨?_, ?_, ?_, ?_, ?_, ?_, ?_⟩
  · intro form newId now db ht
    have hred : (saveThought form none newId now db).1.thoughts
        = db.thoughts ++ [⟨newId, jsTrim form.title,
            (if jsTrim form.category = "" then "Uncategorized" else jsTrim form.category),
            jsTrim form.content, truthyStr form.image, now, none⟩] := by
      simp [saveThought, ht, truthyStr]
    constructor
    · rw [hred]; simp
    · intro hni hnd
      rw [hred]
      simpa using nodup_append_single hnd hni
  · intro form newId now db ht
    refine ⟨{ db with work := db.work ++ [⟨newId, jsTrim form.title, parseTags form.tags,
        jsTrim form.content, truthyStr form.image, now, none⟩] }, ?_, ?_, ?_⟩
    · simp [saveWork, ht, truthyStr]
    · simp
    · intro hni hnd
      simpa using nodup_append_single hnd hni
  · intro form newId now db ht
    refine ⟨{ db with projects := db.projects ++ [⟨newId, jsTrim form.title, jsTrim form.link,
        jsTrim form.desc, truthyStr form.image, now, none⟩] }, ?_, ?_, ?_⟩
    · simp [saveProject, ht, truthyStr]
    · simp
    · intro hni hnd
      simpa using nodup_append_single hnd hni
  · intro name email subject message fetch newId now db hn he hm
    have hep : jsTrim "" = "" := rfl
    have hred : (contactSubmit name email subject message "" fetch newId now db).1.messages
        = db.messages ++ [⟨newId, jsTrim name, jsTrim email, jsTrim subject,
            jsTrim message, now⟩] := by
      simp [contactSubmit, hn, he, hm, hep, saveLocalMessage]
    constructor
    · rw [hred]; simp
    · intro hni hnd
      rw [hred]
      simpa using nodup_append_single hnd hni
  · intro form eid newId now db t0 ht he hf
    have hts : truthyStr (some eid) = some eid := by simp [truthyStr, he]
    have hred : (saveThought form (some eid) newId now db).1.thoughts
        = updateFirst (fun x => x.id == eid) (thoughtEdit form now) db.thoughts := by
      simp [saveThought, ht, hts, hf]
    refine ⟨?_, ?_, ?_⟩
    · rw [hred]
      exact updateFirst_map (fun x => x.id == eid) (thoughtEdit form now) Thought.id
        (fun x => rfl) db.thoughts
    · rw [hred]
      exact updateFirst_map (fun x => x.id == eid) (thoughtEdit form now) Thought.created
        (fun x => rfl) db.thoughts
    · rw [hred, find?_updateFirst (fun x => x.id == eid) (thoughtEdit form now)
        (fun x => rfl) db.thoughts, hf]
      rfl
  · intro form eid newId now db w0 ht he hf
    have hts : truthyStr (some eid) = some eid := by simp [truthyStr, he]
    refine ⟨{ db with work := updateFirst (fun x => x.id == eid) (workEdit form now) db.work },
      ?_, ?_, ?_, ?_⟩
    · simp [saveWork, ht, hts, hf]
    · exact updateFirst_map (fun x => x.id == eid) (workEdit form now) WorkItem.id
        (fun x => rfl) db.work
    · exact updateFirst_map (fun x => x.id == eid) (workEdit form now) WorkItem.created
        (fun x => rfl) db.work
    · rw [find?_updateFirst (fun x => x.id == eid) (workEdit form now) (fun x => rfl) db.work, hf]
      rfl
  · intro form eid newId now db p0 ht he hf
    have hts : truthyStr (some eid) = some eid := by simp [truthyStr, he]
    refine ⟨{ db with projects := updateFirst (fun x => x.id == eid) (projectEdit form now) db.projects }, ?_, ?_, ?_, ?_⟩
    · simp [saveProject, ht, hts, hf]
    · exact updateFirst_map (fun x => x.id == eid) (projectEdit form now) Project.id
        (fun x => rfl) db.projects
    · exact updateFirst_map (fun x => x.id == eid) (projectEdit form now) Project.created
        (fun x => rfl) db.projects
    · rw [find?_updateFirst (fun x => x.id == eid) (projectEdit form now)
        (fun x => rfl) db.projects, hf]
      rfl

theorem create_assigns_witness :
    ((saveThought ⟨"A", "", "c", none⟩ none "id1" "T1" DEFAULT_DB).1.thoughts.map
        (fun t => (t.id, t.created, t.updated)) = [("id1", "T1", none)]) ∧
    (((saveThought ⟨"B", "", "", none⟩ (some "id1") "id2" "T2"
        ⟨[⟨"id1", "A", "Uncategorized", "c", none, "T1", none⟩], [], [], [], none⟩).1.thoughts.find?
          (fun x => x.id == "id1")).map (fun t => (t.id, t.created, t.updated))
        = some ("id1", "T1", some "T2")) ∧
    (∃ db', saveWork ⟨"W", "a,b", "c", none⟩ (some "w1") "id3" "T3"
          ⟨[], [⟨"w1", "Old", [], "c", none, "T0", none⟩], [], [], none⟩
        = Except.ok (db', UIEvent.toast "Work updated") ∧
      db'.work.map WorkItem.id = ["w1"] ∧
      db'.work.map WorkItem.created = ["T0"] ∧
      (db'.work.find? (fun x => x.id == "w1")).map (fun w => (w.id, w.created, w.updated))
        = some ("w1", "T0", some "T3")) := by
  refine ⟨?_, ?_, ?_⟩
  · exact (create_assigns_id_created_edit_preserves.1 ⟨"A", "", "c", none⟩ "id1" "T1"
      DEFAULT_DB (by decide)).1
  · exact (create_assigns_id_created_edit_preserves.2.2.2.2.1 ⟨"B", "", "", none⟩ "id1" "id2" "T2"
      ⟨[⟨"id1", "A", "Uncategorized", "c", none, "T1", none⟩], [], [], [], none⟩
      ⟨"id1", "A", "Uncategorized", "c", none, "T1", none⟩ (by decide) (by decide) rfl).2.2
  · exact create_assigns_id_created_edit_preserves.2.2.2.2.2.1 ⟨"W", "a,b", "c", none⟩ "w1"
      "id3" "T3" ⟨[], [⟨"w1", "Old", [], "c", none, "T0", none⟩], [], [], none⟩
      ⟨"w1", "Old", [], "c", none, "T0", none⟩ (by decide) (by decide) rfl

theorem deletes_remove_witness :
    (deleteThought "a" ⟨[⟨"a", "TA", "C", "x", none, "T0", none⟩,
        ⟨"b", "TB", "C", "y", none, "T1", none⟩], [], [], [], none⟩).1
      = ⟨[⟨"b", "TB", "C", "y", none, "T1", none⟩], [], [], [], none⟩ ∧
    (deleteWork "a" ⟨[], [⟨"a", "WA", [], "x", none, "T0", none⟩], [], [], none⟩).1
      = ⟨[], [], [], [], none⟩ ∧
    (deleteProject "a" ⟨[], [], [⟨"a", "PA", "l", "d", none, "T0", none⟩], [], none⟩).1
      = ⟨[], [], [], [], none⟩ := by
  refine ⟨?_, ?_, ?_⟩
  · exact deletes_remove_exactly.1 _ "a" [] [⟨"b", "TB", "C", "y", none, "T1", none⟩]
      ⟨"a", "TA", "C", "x", none, "T0", none⟩ rfl rfl (by decide)
  · exact deletes_remove_exactly.2.1 _ "a" [] [] ⟨"a", "WA", [], "x", none, "T0", none⟩
      rfl rfl (by decide)
  · exact deletes_remove_exactly.2.2 _ "a" [] [] ⟨"a", "PA", "l", "d", none, "T0", none⟩
      rfl rfl (by decide)

/-- C5: after credential setup with a nonempty email and password, login
with the same pair succeeds; login with a differing email is rejected as
invalid credentials, and login with a password whose digest differs from
the stored digest is rejected as invalid credentials — the check compares
the email and the SHA-256 hex digest of the password against the stored
credential for equality. -/
theorem setup_then_login :
    (∀ (e p : String) (db : DB), jsTrim e ≠ "" → p ≠ "" →
      loginAdmin e p (setupAdmin e p db).1 = UIEvent.toast "Logged in") ∧
    (∀ (e p eIn pIn : String) (db : DB), jsTrim e ≠ "" → p ≠ "" →
      jsTrim eIn ≠ "" → pIn ≠ "" → jsTrim eIn ≠ jsTrim e →
      loginAdmin eIn pIn (setupAdmin e p db).1 = UIEvent.alert "Invalid credentials") ∧
    (∀ (e p eIn pIn : String) (db : DB), jsTrim e ≠ "" → p ≠ "" →
      jsTrim eIn ≠ "" → pIn ≠ "" → hashText pIn ≠ hashText p →
      loginAdmin eIn pIn (setupAdmin e p db).1 = UIEvent.alert "Invalid credentials") := by
  have hsetup : ∀ (e p : String) (db : DB), jsTrim e ≠ "" → p ≠ "" →
      (setupAdmin e p db).1 = { db with admin := some ⟨jsTrim e, hashText p⟩ } := by
    intro e p db he hp
    simp [setupAdmin, he, hp]
  refine ⟨?_, ?_, ?_⟩
  · intro e p db he hp
    rw [hsetup e p db he hp]
    simp [loginAdmin, he, hp]
  · intro e p eIn pIn db he hp hei hpi hne
    rw [hsetup e p db he hp]
    simp [loginAdmin, hei, hpi, Ne.symm hne]
  · intro e p eIn pIn db he hp hei hpi hph
    rw [hsetup e p db he hp]
    by_cases hc : jsTrim e = jsTrim eIn
    · simp [loginAdmin, hei, hpi, hc, Ne.symm hph]
    · simp [loginAdmin, hei, hpi, hc]

theorem setup_then_login_witness :
    loginAdmin "a@b.c" "pw" (setupAdmin "a@b.c" "pw" DEFAULT_DB).1 = UIEvent.toast "Logged in" ∧
    loginAdmin "x@b.c" "pw" (setupAdmin "a@b.c" "pw" DEFAULT_DB).1
      = UIEvent.alert "Invalid credentials" ∧
    loginAdmin "a@b.c" "pw2" (setupAdmin "a@b.c" "pw" DEFAULT_DB).1
      = UIEvent.alert "Invalid credentials" := by
  refine ⟨?_, ?_, ?_⟩
  · exact setup_then_login.1 "a@b.c" "pw" DEFAULT_DB (by decide) (by decide)
  · exact setup_then_login.2.1 "a@b.c" "pw" "x@b.c" "pw" DEFAULT_DB (by decide) (by decide)
      (by decide) (by decide) (by decide)
  · exact setup_then_login.2.2 "a@b.c" "pw" "a@b.c" "pw2" DEFAULT_DB (by decide) (by decide)
      (by decide) (by decide) (by decide)

/-- C6: the claim holds for thoughts (edit of a missing id only produces a
transient Not-found toast and changes nothing) and for every delete, but
the edit branches of `saveWork` and `saveProject` dereference the result of
`find` with no guard, so editing a work item or project whose id is not in
the collection throws a TypeError instead of notifying: the code
contradicts the specified error handling. -/
theorem edit_missing_id_behavior :
    saveWork ⟨"T", "x", "c", none⟩ (some "zzz") "i1" "T1" DEFAULT_DB = Except.error () ∧
    saveProject ⟨"T", "l", "d", none⟩ (some "zzz") "i1" "T1" DEFAULT_DB = Except.error () ∧
    saveThought ⟨"T", "", "c", none⟩ (some "zzz") "i1" "T1" DEFAULT_DB
      = (DEFAULT_DB, UIEvent.toast "Not found") ∧
    deleteThought "zzz" DEFAULT_DB = (DEFAULT_DB, UIEvent.toast "Thought deleted") ∧
    deleteWork "zzz" DEFAULT_DB = (DEFAULT_DB, UIEvent.toast "Work deleted") ∧
    deleteProject "zzz" DEFAULT_DB = (DEFAULT_DB, UIEvent.toast "Project deleted") := by
  exact ⟨rfl, rfl, rfl, rfl, rfl, rfl⟩

/-- C7: a save with a missing required field — a whitespace-only or empty
title for a thought, work item or project, or a missing name, email or
message on the contact form — produces only the blocking alert and returns
the stored document unchanged. -/
theorem missing_required_field_no_change :
    (∀ (form : ThoughtForm) (editing : Option String) (newId now : String) (db : DB),
      jsTrim form.title = "" →
      saveThought form editing newId now db = (db, UIEvent.alert "Title required")) ∧
    (∀ (form : WorkForm) (editing : Option String) (newId now : String) (db : DB),
      jsTrim form.title = "" →
      saveWork form editing newId now db = Except.ok (db, UIEvent.alert "Title required")) ∧
    (∀ (form : ProjectForm) (editing : Option String) (newId now : String) (db : DB),
      jsTrim form.title = "" →
      saveProject form editing newId now db = Except.ok (db, UIEvent.alert "Title required")) ∧
    (∀ (name email subject message endpoint : String) (fetch : FetchOutcome)
        (newId now : String) (db : DB),
      jsTrim name = "" ∨ jsTrim email = "" ∨ jsTrim message = "" →
      contactSubmit name email subject message endpoint fetch newId now db
        = (db, UIEvent.alert "Fill required fields")) := by
  refine ⟨?_, ?_, ?_, ?_⟩
  · intro form editing newId now db ht
    simp [saveThought, ht]
  · intro form editing newId now db ht
    simp [saveWork, ht]
  · intro form editing newId now db ht
    simp [saveProject, ht]
  · intro name email subject message endpoint fetch newId now db h
    simp only [contactSubmit]
    rw [if_pos h]

theorem missing_required_field_witness :
    saveThought ⟨"  ", "c", "x", none⟩ none "i1" "T1" DEFAULT_DB
      = (DEFAULT_DB, UIEvent.alert "Title required") ∧
    saveWork ⟨"", "t", "x", none⟩ none "i1" "T1" DEFAULT_DB
      = Except.ok (DEFAULT_DB, UIEvent.alert "Title required") ∧
    saveProject ⟨"", "l", "d", none⟩ none "i1" "T1" DEFAULT_DB
      = Except.ok (DEFAULT_DB, UIEvent.alert "Title required") ∧
    contactSubmit "" "e@x.y" "s" "m" "" FetchOutcome.ok2xx "i1" "T1" DEFAULT_DB
      = (DEFAULT_DB, UIEvent.alert "Fill required fields") := by
  refine ⟨?_, ?_, ?_, ?_⟩
  · exact missing_required_field_no_change.1 ⟨"  ", "c", "x", none⟩ none "i1" "T1"
      DEFAULT_DB (by decide)
  · exact missing_required_field_no_change.2.1 ⟨"", "t", "x", none⟩ none "i1" "T1"
      DEFAULT_DB (by decide)
  · exact missing_required_field_no_change.2.2.1 ⟨"", "l", "d", none⟩ none "i1" "T1"
      DEFAULT_DB (by decide)
  · exact missing_required_field_no_change.2.2.2 "" "e@x.y" "s" "m" "" FetchOutcome.ok2xx
      "i1" "T1" DEFAULT_DB (Or.inl (by decide))

/-- C8: with a configured relay endpoint, a 2xx response leaves the store
untouched (the message is not saved locally), while a non-2xx response or
a thrown network error appends the message to the local messages
collection; with no endpoint configured the message is always appended
locally. -/
theorem contact_relay_fallback :
    (∀ (name email subject message endpoint newId now : String) (db : DB),
      jsTrim name ≠ "" → jsTrim email ≠ "" → jsTrim message ≠ "" → jsTrim endpoint ≠ "" →
      contactSubmit name email subject message endpoint FetchOutcome.ok2xx newId now db
        = (db, UIEvent.toast "Message sent via Formspree") ∧
      contactSubmit name email subject message endpoint FetchOutcome.non2xx newId now db
        = ({ db with messages := db.messages ++ [⟨newId, jsTrim name, jsTrim email, jsTrim subject, jsTrim message, now⟩] },
           UIEvent.toast "Formspree returned error; saved locally") ∧
      contactSubmit name email subject message endpoint FetchOutcome.netError newId now db
        = ({ db with messages := db.messages ++ [⟨newId, jsTrim name, jsTrim email, jsTrim subject, jsTrim message, now⟩] },
           UIEvent.toast "Network error; saved locally")) ∧
    (∀ (name email subject message newId now : String) (fetch : FetchOutcome) (db : DB),
      jsTrim name ≠ "" → jsTrim email ≠ "" → jsTrim message ≠ "" →
      contactSubmit name email subject message "" fetch newId now db
        = ({ db with messages := db.messages ++ [⟨newId, jsTrim name, jsTrim email, jsTrim subject, jsTrim message, now⟩] },
           UIEvent.toast "Message saved locally")) := by
  constructor
  · intro name email subject message endpoint newId now db hn he hm hep
    refine ⟨?_, ?_, ?_⟩ <;> simp [contactSubmit, hn, he, hm, hep, saveLocalMessage]
  · intro name email subject message newId now fetch db hn he hm
    have hep : jsTrim "" = "" := rfl
    simp [contactSubmit, hn, he, hm, hep, saveLocalMessage]

theorem contact_relay_fallback_witness :
    contactSubmit "n" "e@x.y" "s" "m" "http://f" FetchOutcome.ok2xx "i1" "T1" DEFAULT_DB
      = (DEFAULT_DB, UIEvent.toast "Message sent via Formspree") ∧
    contactSubmit "n" "e@x.y" "s" "m" "http://f" FetchOutcome.non2xx "i1" "T1" DEFAULT_DB
      = (⟨[], [], [], [⟨"i1", "n", "e@x.y", "s", "m", "T1"⟩], none⟩,
         UIEvent.toast "Formspree returned error; saved locally") ∧
    contactSubmit "n" "e@x.y" "s" "m" "http://f" FetchOutcome.netError "i1" "T1" DEFAULT_DB
      = (⟨[], [], [], [⟨"i1", "n", "e@x.y", "s", "m", "T1"⟩], none⟩,
         UIEvent.toast "Network error; saved locally") ∧
    contactSubmit "n" "e@x.y" "s" "m" "" FetchOutcome.netError "i1" "T1" DEFAULT_DB
      = (⟨[], [], [], [⟨"i1", "n", "e@x.y", "s", "m", "T1"⟩], none⟩,
         UIEvent.toast "Message saved locally") := by
  have h := contact_relay_fallback.1 "n" "e@x.y" "s" "m" "http://f" "i1" "T1" DEFAULT_DB
    (by decide) (by decide) (by decide) (by decide)
  have h2 := contact_relay_fallback.2 "n" "e@x.y" "s" "m" "i1" "T1" FetchOutcome.netError
    DEFAULT_DB (by decide) (by decide) (by decide)
  exact ⟨h.1, h.2.1, h.2.2, h2⟩

theorem mem_updateFirst (p : α → Bool) (f : α → α) :
    ∀ l : List α, ∀ y ∈ updateFirst p f l, y ∈ l ∨ ∃ x ∈ l, y = f x := by
  intro l
  induction l with
  | nil => intro y hy; cases hy
  | cons x xs ih =>
      intro y hy
      by_cases hp : p x = true
      · simp only [updateFirst, hp, if_pos] at hy
        rcases List.mem_cons.mp hy with h | h
        · exact Or.inr ⟨x, List.mem_cons_self x xs, h⟩
        · exact Or.inl (List.mem_cons_of_mem x h)
      · simp only [updateFirst, hp, if_neg, Bool.false_eq_true, not_false_iff] at hy
        rcases List.mem_cons.mp hy with h | h
        · exact Or.inl (h ▸ List.mem_cons_self x xs)
        · rcases ih y h with h2 | ⟨z, hz, hzf⟩
          · exact Or.inl (List.mem_cons_of_mem x h2)
          · exact Or.inr ⟨z, List.mem_cons_of_mem x hz, hzf⟩

/-- C9 counterexample: the comma-separated tag input is split, trimmed and
filtered but never deduplicated, so saving a work item with tag input
containing a repeated tag stores a tags list with a duplicate: the claimed
pairwise distinctness fails. -/
theorem work_tags_duplicate :
    saveWork ⟨"T", "a,a", "c", none⟩ none "i1" "T1" DEFAULT_DB
      = Except.ok (⟨[], [⟨"i1", "T", ["a", "a"], "c", none, "T1", none⟩], [], [], none⟩,
        UIEvent.toast "Work saved") ∧
    ¬ (["a", "a"] : List String).Nodup := by
  exact ⟨rfl, by decide⟩

/-- C9 amended: every tag stored by a work save is non-empty and is the
trimmed form of one comma-separated segment of the input, and every work
record a save stores either keeps its previous tags or carries exactly the
list derived from the input; duplicates in that list are kept (it is a
list, not a set). -/
theorem work_tags_trimmed_nonempty :
    (∀ raw : String, ∀ t ∈ parseTags raw, t ≠ "" ∧ ∃ seg ∈ jsSplit ',' raw, t = jsTrim seg) ∧
    (∀ (form : WorkForm) (editing : Option String) (newId now : String) (db db' : DB)
        (ev : UIEvent),
      saveWork form editing newId now db = Except.ok (db', ev) →
      ∀ w ∈ db'.work, w ∈ db.work ∨ w.tags = parseTags form.tags) := by
  constructor
  · intro raw t ht
    simp only [parseTags, List.mem_filter, List.mem_map] at ht
    obtain ⟨⟨seg, hseg, hts⟩, htne⟩ := ht
    refine ⟨by simpa using htne, seg, hseg, hts.symm⟩
  · intro form editing newId now db db' ev h w hw
    by_cases ht : jsTrim form.title = ""
    · simp [saveWork, ht] at h
      obtain ⟨hdb, _⟩ := h
      subst hdb
      exact Or.inl hw
    · cases hte : truthyStr editing with
      | none =>
          simp [saveWork, ht, hte] at h
          obtain ⟨hdb, _⟩ := h
          subst hdb
          rcases List.mem_append.mp hw with h2 | h2
          · exact Or.inl h2
          · simp at h2
            subst h2
            exact Or.inr rfl
      | some eid =>
          cases hf : db.work.find? (fun x => x.id == eid) with
          | none => simp [saveWork, ht, hte, hf] at h
          | some w0 =>
              simp [saveWork, ht, hte, hf] at h
              obtain ⟨hdb, _⟩ := h
              subst hdb
              rcases mem_updateFirst _ _ db.work w hw with h2 | ⟨z, hz, hzf⟩
              · exact Or.inl h2
              · subst hzf
                exact Or.inr rfl

theorem work_tags_witness :
    ("a" ≠ "" ∧ ∃ seg ∈ jsSplit ',' " a ,b", "a" = jsTrim seg) ∧
    ((⟨"i1", "T", ["a", "a"], "c", none, "T1", none⟩ : WorkItem) ∈ DEFAULT_DB.work ∨
      (["a", "a"] : List String) = parseTags "a,a") := by
  constructor
  · exact work_tags_trimmed_nonempty.1 " a ,b" "a" (by decide)
  · exact work_tags_trimmed_nonempty.2 ⟨"T", "a,a", "c", none⟩ none "i1" "T1" DEFAULT_DB
      ⟨[], [⟨"i1", "T", ["a", "a"], "c", none, "T1", none⟩], [], [], none⟩
      (UIEvent.toast "Work saved") rfl ⟨"i1", "T", ["a", "a"], "c", none, "T1", none⟩
      (by simp)

/-- C10: an edit during which no new image file was read (the file input
produced null) leaves the image field of every record in the collection
unchanged, for thoughts, work items and projects; a previously stored
image is never cleared by such an edit. -/
theorem edit_without_new_image_keeps_image :
    (∀ (form : ThoughtForm) (eid newId now : String) (db : DB),
      form.image = none → eid ≠ "" →
      (saveThought form (some eid) newId now db).1.thoughts.map Thought.image
        = db.thoughts.map Thought.image) ∧
    (∀ (form : WorkForm) (eid newId now : String) (db db' : DB) (ev : UIEvent),
      form.image = none → eid ≠ "" →
      saveWork form (some eid) newId now db = Except.ok (db', ev) →
      db'.work.map WorkItem.image = db.work.map WorkItem.image) ∧
    (∀ (form : ProjectForm) (eid newId now : String) (db db' : DB) (ev : UIEvent),
      form.image = none → eid ≠ "" →
      saveProject form (some eid) newId now db = Except.ok (db', ev) →
      db'.projects.map Project.image = db.projects.map Project.image) := by
  refine ⟨?_, ?_, ?_⟩
  · intro form eid newId now db him he
    by_cases ht : jsTrim form.title = ""
    · simp [saveThought, ht]
    · have hts : truthyStr (some eid) = some eid := by simp [truthyStr, he]
      cases hf : db.thoughts.find? (fun x => x.id == eid) with
      | none => simp [saveThought, ht, hts, hf]
      | some t0 =>
          have hred : (saveThought form (some eid) newId now db).1.thoughts
              = updateFirst (fun x => x.id == eid) (thoughtEdit form now) db.thoughts := by
            simp [saveThought, ht, hts, hf]
          rw [hred]
          exact updateFirst_map (fun x => x.id == eid) (thoughtEdit form now) Thought.image
            (fun x => by simp [thoughtEdit, him, truthyStr]) db.thoughts
  · intro form eid newId now db db' ev him he h
    by_cases ht : jsTrim form.title = ""
    · simp [saveWork, ht] at h
      obtain ⟨hdb, _⟩ := h
      subst hdb
      rfl
    · have hts : truthyStr (some eid) = some eid := by simp [truthyStr, he]
      cases hf : db.work.find? (fun x => x.id == eid) with
      | none => simp [saveWork, ht, hts, hf] at h
      | some w0 =>
          simp [saveWork, ht, hts, hf] at h
          obtain ⟨hdb, _⟩ := h
          subst hdb
          exact updateFirst_map (fun x => x.id == eid) (workEdit form now) WorkItem.image
            (fun x => by simp [workEdit, him, truthyStr]) db.work
  · intro form eid newId now db db' ev him he h
    by_cases ht : jsTrim form.title = ""
    · simp [saveProject, ht] at h
      obtain ⟨hdb, _⟩ := h
      subst hdb
      rfl
    · have hts : truthyStr (some eid) = some eid := by simp [truthyStr, he]
      cases hf : db.projects.find? (fun x => x.id == eid) with
      | none => simp [saveProject, ht, hts, hf] at h
      | some p0 =>
          simp [saveProject, ht, hts, hf] at h
          obtain ⟨hdb, _⟩ := h
          subst hdb
          exact updateFirst_map (fun x => x.id == eid) (projectEdit form now) Project.image
            (fun x => by simp [projectEdit, him, truthyStr]) db.projects

theorem edit_keeps_image_witness :
    (saveThought ⟨"B", "", "", none⟩ (some "id1") "id2" "T2"
        ⟨[⟨"id1", "A", "U", "c", some "IMG", "T1", none⟩], [], [], [], none⟩).1.thoughts.map
      Thought.image = [some "IMG"] ∧
    (⟨[], [⟨"w1", "B", [], "", some "IMG", "T1", some "T2"⟩], [], [], none⟩ : DB).work.map
      WorkItem.image = [some "IMG"] := by
  constructor
  · exact edit_without_new_image_keeps_image.1 ⟨"B", "", "", none⟩ "id1" "id2" "T2"
      ⟨[⟨"id1", "A", "U", "c", some "IMG", "T1", none⟩], [], [], [], none⟩ rfl (by decide)
  · exact edit_without_new_image_keeps_image.2.1 ⟨"B", "", "", none⟩ "w1" "id2" "T2"
      ⟨[], [⟨"w1", "A", [], "c", some "IMG", "T1", none⟩], [], [], none⟩
      ⟨[], [⟨"w1", "B", [], "", some "IMG", "T1", some "T2"⟩], [], [], none⟩
      (UIEvent.toast "Work updated") rfl (by decide) rfl
